import Mathlib

/-!
Verification of the binary codec, aggregation and triangulation core of the
wifi-geolocate worker (`worker/index.js`).

The JavaScript source is shallowly embedded:
* byte buffers (`Uint8Array`) become `List Nat` (every element produced by the
  code is `< 256`, but the embedding does not need that bound);
* `BigInt` arithmetic becomes `Nat`/`Int` arithmetic (BigInt is exact, so no
  wraparound modelling is required; the explicit two's-complement reinterpretation
  performed by `decodeInt64` is translated literally);
* thrown exceptions become `Except` values;
* JavaScript numbers that only ever hold exact decimal/integer data are `ℚ`,
  while the transcendental triangulation math (`Math.pow`, `cos`, `sin`,
  `atan2`, `sqrt`) is modelled over `ℝ`.
-/

namespace WifiGeo

/-- Decode errors thrown by the wire parsers: `readVarint` throws
"Encountered truncated varint." and `skipField` throws
"Unsupported wire type: w". -/
inductive DecodeError where
  | truncatedVarint : DecodeError
  | unsupportedWireType (wireType : Nat) : DecodeError
deriving Repr, DecidableEq

/-- Loop body of `readVarint` (source lines 340–353), recursing over the part
of the buffer from the current position on.  Returns the decoded value and the
number of bytes consumed.  `result |= BigInt(byte & 0x7f) << shift` and the
continuation test `(byte & 0x80) === 0` are translated literally. -/
def readVarintLoop : List Nat → Nat → Nat → Except DecodeError (Nat × Nat)
  | [], _, _ => .error .truncatedVarint
  | byte :: rest, result, shift =>
    let result2 := result ||| ((byte &&& 0x7f) <<< shift)
    if byte &&& 0x80 = 0 then
      .ok (result2, 1)
    else
      match readVarintLoop rest result2 (shift + 7) with
      | .ok (value, consumed) => .ok (value, consumed + 1)
      | .error e => .error e

/-- `readVarint(buffer, offset)` (source lines 340–353): base-128 varint
decoding starting at `offset`; on success returns the value and the position
just past the last byte read. -/
def readVarint (buffer : List Nat) (offset : Nat) : Except DecodeError (Nat × Nat) :=
  match readVarintLoop (buffer.drop offset) 0 0 with
  | .ok (value, consumed) => .ok (value, offset + consumed)
  | .error e => .error e

/-- `encodeVarint(value)` (source lines 355–364): base-128 little-endian
varint encoding; the loop `while (n >= 0x80) { push((n & 0x7f) | 0x80); n >>= 7 }`
followed by `push(n)` becomes structural recursion on the value. -/
def encodeVarint (value : Nat) : List Nat :=
  if value < 0x80 then
    [value]
  else
    ((value &&& 0x7f) ||| 0x80) :: encodeVarint (value >>> 7)
decreasing_by
  simp only [Nat.shiftRight_eq_div_pow]
  exact Nat.div_lt_self (by omega) (by norm_num)

/-! ### Arithmetic facts about the bit operations used by the varint codec -/

theorem land_127_eq_mod (n : Nat) : n &&& 127 = n % 128 := by
  have h := Nat.and_pow_two_sub_one_eq_mod n 7
  norm_num at h
  exact h

theorem and_two_pow_eq_zero_of_lt {x n : Nat} (h : x < 2 ^ n) : x &&& 2 ^ n = 0 := by
  apply Nat.eq_of_testBit_eq
  intro i
  simp only [Nat.testBit_and, Nat.testBit_two_pow, Nat.zero_testBit]
  rcases eq_or_ne n i with rfl | hne
  · simp [Nat.testBit_lt_two_pow h]
  · simp [hne]

theorem lor_shiftLeft_of_lt {a : Nat} (b s : Nat) (h : a < 2 ^ s) :
    a ||| (b <<< s) = a + b * 2 ^ s := by
  rw [Nat.shiftLeft_eq, Nat.or_comm, Nat.mul_comm b (2 ^ s), ← Nat.mul_add_lt_is_or h b,
    Nat.add_comm]

theorem encode_byte_and_127 (x : Nat) : ((x &&& 127) ||| 128) &&& 127 = x &&& 127 := by
  rw [Nat.and_comm, Nat.and_or_distrib_left]
  have h1 : 127 &&& 128 = 0 := by decide
  have h2 : 127 &&& (x &&& 127) = x &&& 127 := by
    rw [Nat.and_comm 127 (x &&& 127), Nat.and_assoc, Nat.and_self]
  rw [h1, h2, Nat.or_zero]

theorem encode_byte_and_128 (x : Nat) : ((x &&& 127) ||| 128) &&& 128 = 128 := by
  rw [Nat.and_comm, Nat.and_or_distrib_left]
  have h1 : (128 : Nat) &&& 128 = 128 := Nat.and_self 128
  have h2 : 128 &&& (x &&& 127) = 0 := by
    rw [Nat.and_comm x 127, ← Nat.and_assoc]
    rw [show (128 : Nat) &&& 127 = 0 by decide, Nat.zero_and]
  rw [h1, h2, Nat.zero_or]

/-- Reading back an encoded varint with arbitrary accumulator state:
as long as the bits already accumulated lie below the current shift, the loop
adds the encoded value shifted into place and consumes the whole encoding. -/
theorem readVarintLoop_encodeVarint (x : Nat) :
    ∀ result shift, result < 2 ^ shift →
      readVarintLoop (encodeVarint x) result shift =
        .ok (result + x * 2 ^ shift, (encodeVarint x).length) := by
  induction x using encodeVarint.induct with
  | case1 x hlt =>
    intro result shift hr
    rw [encodeVarint, if_pos hlt]
    have hx127 : x &&& 127 = x := by
      rw [land_127_eq_mod, Nat.mod_eq_of_lt hlt]
    have hx128 : x &&& 128 = 0 := @and_two_pow_eq_zero_of_lt x 7 hlt
    simp only [readVarintLoop, hx127, hx128, if_pos rfl]
    rw [lor_shiftLeft_of_lt x shift hr]
    simp
  | case2 x hlt ih =>
    intro result shift hr
    rw [encodeVarint, if_neg hlt]
    have hb127 : ((x &&& 127) ||| 128) &&& 127 = x % 128 := by
      rw [encode_byte_and_127, land_127_eq_mod]
    have hb128 : ((x &&& 127) ||| 128) &&& 128 ≠ 0 := by
      rw [encode_byte_and_128]; omega
    simp only [readVarintLoop, hb127, hb128, if_neg]
    have hmod : x % 128 < 128 := Nat.mod_lt x (by omega)
    have hacc : result ||| ((x % 128) <<< shift) = result + (x % 128) * 2 ^ shift :=
      lor_shiftLeft_of_lt (x % 128) shift hr
    have hlt2 : result + (x % 128) * 2 ^ shift < 2 ^ (shift + 7) := by
      have h1 : result + (x % 128) * 2 ^ shift < 2 ^ shift + 127 * 2 ^ shift + 1 := by
        have := Nat.mul_le_mul_right (2 ^ shift) (show x % 128 ≤ 127 by omega)
        omega
      have h2 : 2 ^ (shift + 7) = 2 ^ shift * 128 := by rw [pow_add]; norm_num
      nlinarith [pow_pos (show (0:ℕ) < 2 by norm_num) shift]
    rw [hacc, ih (result + (x % 128) * 2 ^ shift) (shift + 7) hlt2]
    have hval : result + (x % 128) * 2 ^ shift + (x >>> 7) * 2 ^ (shift + 7) =
        result + x * 2 ^ shift := by
      rw [Nat.shiftRight_eq_div_pow]
      have hx : x % 128 + 128 * (x / 2 ^ 7) = x := by
        have := Nat.mod_add_div x 128
        norm_num at this ⊢
        omega
      calc result + (x % 128) * 2 ^ shift + (x / 2 ^ 7) * 2 ^ (shift + 7)
          = result + (x % 128 + 128 * (x / 2 ^ 7)) * 2 ^ shift := by rw [pow_add]; ring
        _ = result + x * 2 ^ shift := by rw [hx]
    simp [hval]

/-! ### Progress: every successful varint read consumes at least one byte -/

theorem readVarintLoop_consumed_pos :
    ∀ (bytes : List Nat) (result shift value consumed : Nat),
      readVarintLoop bytes result shift = .ok (value, consumed) → 0 < consumed := by
  intro bytes
  induction bytes with
  | nil => intro result shift value consumed h; simp [readVarintLoop] at h
  | cons byte rest ih =>
    intro result shift value consumed h
    simp only [readVarintLoop] at h
    split at h
    · simp at h
      omega
    · cases hrec : readVarintLoop rest (result ||| ((byte &&& 127) <<< shift)) (shift + 7) with
      | ok p =>
        rw [hrec] at h
        simp at h
        omega
      | error e => rw [hrec] at h; simp at h

theorem readVarint_progress {buffer : List Nat} {offset value next : Nat}
    (h : readVarint buffer offset = .ok (value, next)) : offset < next := by
  unfold readVarint at h
  cases hloop : readVarintLoop (buffer.drop offset) 0 0 with
  | ok p =>
    rw [hloop] at h
    simp at h
    have := readVarintLoop_consumed_pos (buffer.drop offset) 0 0 p.1 p.2 (by simp [hloop])
    omega
  | error e => rw [hloop] at h; simp at h

/-- `skipField(buffer, offset, wireType)` (source lines 321–338): advances past
a field body — one varint for wire type 0, 8 bytes for wire type 1, a
varint-prefixed run for wire type 2, 4 bytes for wire type 5, and throws
"Unsupported wire type" otherwise. -/
def skipField (buffer : List Nat) (offset wireType : Nat) : Except DecodeError Nat :=
  match wireType with
  | 0 =>
    match readVarint buffer offset with
    | .ok (_, nextOffset) => .ok nextOffset
    | .error e => .error e
  | 1 => .ok (offset + 8)
  | 2 =>
    match readVarint buffer offset with
    | .ok (length, nextOffset) => .ok (nextOffset + length)
    | .error e => .error e
  | 5 => .ok (offset + 4)
  | w => .error (.unsupportedWireType w)

theorem skipField_progress {buffer : List Nat} {offset wireType next : Nat}
    (h : skipField buffer offset wireType = .ok next) : offset < next := by
  unfold skipField at h
  split at h
  · cases hv : readVarint buffer offset with
    | ok p =>
      rw [hv] at h
      simp at h
      have := @readVarint_progress buffer offset p.1 p.2 (by simp [hv])
      omega
    | error e => rw [hv] at h; simp at h
  · simp at h; omega
  · cases hv : readVarint buffer offset with
    | ok p =>
      rw [hv] at h
      simp at h
      have := @readVarint_progress buffer offset p.1 p.2 (by simp [hv])
      omega
    | error e => rw [hv] at h; simp at h
  · simp at h; omega
  · simp at h

/-! ### Wire-message parsing -/

/-- `decodeInt64(buffer, offset)` (source lines 315–319): reads an unsigned
varint and reinterprets it as a signed 64-bit two's-complement value:
`value > 0x7fffffffffffffffn ? value - 0x10000000000000000n : value`. -/
def decodeInt64 (buffer : List Nat) (offset : Nat) : Except DecodeError (Int × Nat) :=
  match readVarint buffer offset with
  | .ok (value, nextOffset) =>
    .ok (if value > 0x7fffffffffffffff then (value : Int) - 0x10000000000000000
         else (value : Int), nextOffset)
  | .error e => .error e

theorem decodeInt64_progress {buffer : List Nat} {offset : Nat} {value : Int} {next : Nat}
    (h : decodeInt64 buffer offset = .ok (value, next)) : offset < next := by
  unfold decodeInt64 at h
  cases hv : readVarint buffer offset with
  | ok p =>
    rw [hv] at h
    simp at h
    have := @readVarint_progress buffer offset p.1 p.2 (by simp [hv])
    omega
  | error e => rw [hv] at h; simp at h

/-- The fixed-point coordinate record built by `parseLocation`
(`{ latitudeE8, longitudeE8 }`, source line 312).  The JS code converts the
signed `BigInt`s with `Number(...)`, which is exact for the magnitudes a
coordinate can take (`|v| ≤ 360·10^8 < 2^53`); the embedding keeps `Int`. -/
structure Location where
  latitudeE8 : Int
  longitudeE8 : Int
deriving Repr, DecidableEq

/-- The return step of `parseLocation` (source lines 308–312): a missing
latitude or longitude yields `null`, otherwise the coordinate record. -/
def finishLocation (latitude longitude : Option Int) : Except DecodeError (Option Location) :=
  match latitude, longitude with
  | some la, some lo => .ok (some ⟨la, lo⟩)
  | _, _ => .ok none

/-- Loop of `parseLocation` (source lines 284–313): scans the submessage,
recording the last wire-type-0 value of field 1 as latitude and of field 2 as
longitude, skipping all other fields. -/
def parseLocationLoop (buffer : List Nat) (offset : Nat)
    (latitude longitude : Option Int) : Except DecodeError (Option Location) :=
  if h : offset < buffer.length then
    match hv : readVarint buffer offset with
    | .error e => .error e
    | .ok (tag, newOffset) =>
      let fieldNumber := tag >>> 3
      let wireType := tag &&& 7
      if wireType = 0 then
        match hd : decodeInt64 buffer newOffset with
        | .error e => .error e
        | .ok (value, nextOffset) =>
          if fieldNumber = 1 then
            parseLocationLoop buffer nextOffset (some value) longitude
          else if fieldNumber = 2 then
            parseLocationLoop buffer nextOffset latitude (some value)
          else
            parseLocationLoop buffer nextOffset latitude longitude
      else
        match hs : skipField buffer newOffset wireType with
        | .error e => .error e
        | .ok nextOffset => parseLocationLoop buffer nextOffset latitude longitude
  else
    finishLocation latitude longitude
termination_by buffer.length - offset
decreasing_by
  · have h1 := readVarint_progress hv
    have h2 := decodeInt64_progress hd
    omega
  · have h1 := readVarint_progress hv
    have h2 := decodeInt64_progress hd
    omega
  · have h1 := readVarint_progress hv
    have h2 := decodeInt64_progress hd
    omega
  · have h1 := readVarint_progress hv
    have h2 := skipField_progress hs
    omega

/-- `parseLocation(buffer)` (source lines 284–313): returns `none` when the
latitude or the longitude field is missing. -/
def parseLocation (buffer : List Nat) : Except DecodeError (Option Location) :=
  parseLocationLoop buffer 0 none none

/-- Models `TEXT_DECODER.decode` on a byte slice.  The worker only ever feeds
the decoded text to BSSID normalization; byte sequences that are not valid
UTF-8 (which the real `TextDecoder` patches up with U+FFFD) decode to `""`
here — no verified property depends on that case. -/
def textDecode (bytes : List Nat) : String :=
  match String.fromUTF8? (ByteArray.mk (Array.mk (bytes.map (fun b => UInt8.ofNat b)))) with
  | some s => s
  | none => ""

/-- The device record built by `parseWifiDevice` (source line 281). -/
structure WifiDevice where
  bssid : Option String
  location : Option Location
deriving Repr, DecidableEq

/-- Loop of `parseWifiDevice` (source lines 253–282): field 1 (length
delimited) is the BSSID text, field 2 (length delimited) a nested location
submessage, everything else is skipped.  `buffer.subarray(offset, end)`
becomes `(buffer.drop offset).take length` (both clamp at the buffer end). -/
def parseWifiDeviceLoop (buffer : List Nat) (offset : Nat)
    (bssid : Option String) (location : Option Location) :
    Except DecodeError WifiDevice :=
  if h : offset < buffer.length then
    match hv : readVarint buffer offset with
    | .error e => .error e
    | .ok (tag, newOffset) =>
      let fieldNumber := tag >>> 3
      let wireType := tag &&& 7
      if fieldNumber = 1 ∧ wireType = 2 then
        match hl : readVarint buffer newOffset with
        | .error e => .error e
        | .ok (length, lengthOffset) =>
          parseWifiDeviceLoop buffer (lengthOffset + length)
            (some (textDecode ((buffer.drop lengthOffset).take length))) location
      else if fieldNumber = 2 ∧ wireType = 2 then
        match hl : readVarint buffer newOffset with
        | .error e => .error e
        | .ok (length, lengthOffset) =>
          match parseLocation ((buffer.drop lengthOffset).take length) with
          | .error e => .error e
          | .ok loc => parseWifiDeviceLoop buffer (lengthOffset + length) bssid loc
      else
        match hs : skipField buffer newOffset wireType with
        | .error e => .error e
        | .ok nextOffset => parseWifiDeviceLoop buffer nextOffset bssid location
  else
    .ok ⟨bssid, location⟩
termination_by buffer.length - offset
decreasing_by
  · have h1 := readVarint_progress hv
    have h2 := readVarint_progress hl
    omega
  · have h1 := readVarint_progress hv
    have h2 := readVarint_progress hl
    omega
  · have h1 := readVarint_progress hv
    have h2 := skipField_progress hs
    omega

/-- `parseWifiDevice(buffer)` (source lines 253–282). -/
def parseWifiDevice (buffer : List Nat) : Except DecodeError WifiDevice :=
  parseWifiDeviceLoop buffer 0 none none

/-- Loop of `parseAppleWLoc` (source lines 231–251): every field number 2 /
wire type 2 value is parsed as a device submessage, everything else skipped. -/
def parseAppleWLocLoop (buffer : List Nat) (offset : Nat)
    (devices : List WifiDevice) : Except DecodeError (List WifiDevice) :=
  if h : offset < buffer.length then
    match hv : readVarint buffer offset with
    | .error e => .error e
    | .ok (tag, newOffset) =>
      let fieldNumber := tag >>> 3
      let wireType := tag &&& 7
      if fieldNumber = 2 ∧ wireType = 2 then
        match hl : readVarint buffer newOffset with
        | .error e => .error e
        | .ok (length, lengthOffset) =>
          match parseWifiDevice ((buffer.drop lengthOffset).take length) with
          | .error e => .error e
          | .ok device =>
            parseAppleWLocLoop buffer (lengthOffset + length) (devices ++ [device])
      else
        match hs : skipField buffer newOffset wireType with
        | .error e => .error e
        | .ok nextOffset => parseAppleWLocLoop buffer nextOffset devices
  else
    .ok devices
termination_by buffer.length - offset
decreasing_by
  · have h1 := readVarint_progress hv
    have h2 := readVarint_progress hl
    omega
  · have h1 := readVarint_progress hv
    have h2 := skipField_progress hs
    omega

/-- `parseAppleWLoc(buffer)` (source lines 231–251). -/
def parseAppleWLoc (buffer : List Nat) : Except DecodeError (List WifiDevice) :=
  parseAppleWLocLoop buffer 0 []

/-! ### Claim C2: the location decoder, compared against the spec's words -/

/-- Follows the spec's words (refinement comparison for C2): "every decoded
value v with v > 2^63-1 becomes v - 2^64, all other values are unchanged". -/
def toSigned (v : Nat) : Int :=
  if v > 2 ^ 63 - 1 then (v : Int) - 2 ^ 64 else (v : Int)

/-- Follows the spec's words (refinement comparison for C2): the scan of a
location submessage that records the raw unsigned varint value of field 1
(latitude) and of field 2 (longitude), skipping every other field, and
reports which of the two fields were present. -/
def locationRawLoop (buffer : List Nat) (offset : Nat)
    (latitude longitude : Option Nat) : Except DecodeError (Option Nat × Option Nat) :=
  if h : offset < buffer.length then
    match hv : readVarint buffer offset with
    | .error e => .error e
    | .ok (tag, newOffset) =>
      if tag &&& 7 = 0 then
        match hd : readVarint buffer newOffset with
        | .error e => .error e
        | .ok (value, nextOffset) =>
          if tag >>> 3 = 1 then
            locationRawLoop buffer nextOffset (some value) longitude
          else if tag >>> 3 = 2 then
            locationRawLoop buffer nextOffset latitude (some value)
          else
            locationRawLoop buffer nextOffset latitude longitude
      else
        match hs : skipField buffer newOffset (tag &&& 7) with
        | .error e => .error e
        | .ok nextOffset => locationRawLoop buffer nextOffset latitude longitude
  else
    .ok (latitude, longitude)
termination_by buffer.length - offset
decreasing_by
  · have h1 := readVarint_progress hv
    have h2 := readVarint_progress hd
    omega
  · have h1 := readVarint_progress hv
    have h2 := readVarint_progress hd
    omega
  · have h1 := readVarint_progress hv
    have h2 := readVarint_progress hd
    omega
  · have h1 := readVarint_progress hv
    have h2 := skipField_progress hs
    omega

/-- Raw (unsigned, presence-aware) reading of a location submessage. -/
def locationRawFields (buffer : List Nat) : Except DecodeError (Option Nat × Option Nat) :=
  locationRawLoop buffer 0 none none

/-- How `parseLocation`'s result arises from the raw field values: absent
latitude or longitude yields no location, present ones are reinterpreted as
signed 64-bit values. -/
def rawToLocation (p : Option Nat × Option Nat) : Option Location :=
  match p with
  | (some la, some lo) => some ⟨toSigned la, toSigned lo⟩
  | _ => none

theorem decodeInt64_eq_toSigned (buffer : List Nat) (offset : Nat) :
    decodeInt64 buffer offset =
      (readVarint buffer offset).map (fun p => (toSigned p.1, p.2)) := by
  unfold decodeInt64
  cases hv : readVarint buffer offset with
  | ok p =>
    simp only [Except.map, toSigned]
    norm_num
  | error e => simp [Except.map]

theorem parseLocationLoop_eq_raw (buffer : List Nat) :
    ∀ n offset, buffer.length - offset ≤ n → ∀ ula ulo : Option Nat,
      parseLocationLoop buffer offset (ula.map toSigned) (ulo.map toSigned) =
        (locationRawLoop buffer offset ula ulo).map rawToLocation := by
  intro n
  induction n with
  | zero =>
    intro offset hlen ula ulo
    rw [parseLocationLoop.eq_def, locationRawLoop.eq_def]
    rw [dif_neg (by omega), dif_neg (by omega)]
    cases ula <;> cases ulo <;> simp [Except.map, rawToLocation, finishLocation]
  | succ n ih =>
    intro offset hlen ula ulo
    rw [parseLocationLoop.eq_def, locationRawLoop.eq_def]
    by_cases h : offset < buffer.length
    · rw [dif_pos h, dif_pos h]
      cases hv : readVarint buffer offset with
      | error e => simp [Except.map]
      | ok p =>
        obtain ⟨tag, newOffset⟩ := p
        have hprog := readVarint_progress hv
        simp only
        by_cases hw : tag &&& 7 = 0
        · rw [if_pos hw, if_pos hw]
          rw [decodeInt64_eq_toSigned]
          cases hd : readVarint buffer newOffset with
          | error e => simp [Except.map]
          | ok q =>
            obtain ⟨value, nextOffset⟩ := q
            have hprog2 := readVarint_progress hd
            simp only [Except.map]
            by_cases hf1 : tag >>> 3 = 1
            · rw [if_pos hf1, if_pos hf1]
              have := ih nextOffset (by omega) (some value) ulo
              simpa using this
            · rw [if_neg hf1, if_neg hf1]
              by_cases hf2 : tag >>> 3 = 2
              · rw [if_pos hf2, if_pos hf2]
                have := ih nextOffset (by omega) ula (some value)
                simpa using this
              · rw [if_neg hf2, if_neg hf2]
                exact ih nextOffset (by omega) ula ulo
        · rw [if_neg hw, if_neg hw]
          cases hs : skipField buffer newOffset (tag &&& 7) with
          | error e => simp [Except.map]
          | ok nextOffset =>
            have hprog2 := skipField_progress hs
            exact ih nextOffset (by omega) ula ulo
    · rw [dif_neg h, dif_neg h]
      cases ula <;> cases ulo <;> simp [Except.map, rawToLocation, finishLocation]

/-- C2: in the location submessage decoder each coordinate is read as an
unsigned varint and reinterpreted as a signed 64-bit two's-complement value
(`toSigned`: values above `2^63-1` drop by `2^64`, all others unchanged), and
whenever field 1 (latitude) or field 2 (longitude) is absent the decoder
returns no location (`none`) rather than a zero coordinate:
`parseLocation` is exactly the raw field scan followed by `rawToLocation`. -/
theorem parseLocation_eq_raw (buffer : List Nat) :
    parseLocation buffer = (locationRawFields buffer).map rawToLocation := by
  have h := parseLocationLoop_eq_raw buffer buffer.length 0 (by omega) none none
  simpa [parseLocation, locationRawFields] using h

/-! ### Claim C1: varint round trip -/

/-- C1: for every non-negative integer `x` up to `2^63 - 1`, decoding the
bytes produced by `encodeVarint x` with `readVarint` at offset 0 yields
`(x, L)` where `L` is the length of the encoding: varint encode followed by
decode is the identity on that range. -/
theorem varint_roundtrip (x : Nat) (hx : x ≤ 2 ^ 63 - 1) :
    readVarint (encodeVarint x) 0 = .ok (x, (encodeVarint x).length) := by
  unfold readVarint
  rw [List.drop_zero, readVarintLoop_encodeVarint x 0 0 (by norm_num)]
  simp

/-- Witness for C1 at the concrete input 300 (a two-byte varint). -/
theorem varint_roundtrip_witness :
    300 ≤ 2 ^ 63 - 1 ∧ encodeVarint 300 = [172, 2] ∧
      readVarint (encodeVarint 300) 0 = .ok (300, (encodeVarint 300).length) :=
  ⟨by norm_num, by
    rw [encodeVarint, if_neg (by norm_num)]
    rw [show (300 : Nat) >>> 7 = 2 from by decide,
      show ((300 : Nat) &&& 0x7f ||| 0x80) = 172 from by decide]
    rw [encodeVarint, if_pos (by norm_num)],
    varint_roundtrip 300 (by norm_num)⟩

/-! ### Claim C6: skipField -/

/-- C6: `skipField buffer offset wireType` returns the offset just past the
skipped field: wire type 0 consumes one varint, wire type 1 yields
`offset + 8`, wire type 2 consumes a length varint and then that many bytes,
wire type 5 yields `offset + 4`; every other wire type fails with the
unsupported-wire-type error rather than returning an offset. -/
theorem skipField_spec (buffer : List Nat) (offset : Nat) :
    (∀ value next, readVarint buffer offset = .ok (value, next) →
      skipField buffer offset 0 = .ok next) ∧
    skipField buffer offset 1 = .ok (offset + 8) ∧
    (∀ length next, readVarint buffer offset = .ok (length, next) →
      skipField buffer offset 2 = .ok (next + length)) ∧
    skipField buffer offset 5 = .ok (offset + 4) ∧
    (∀ wireType, wireType ≠ 0 → wireType ≠ 1 → wireType ≠ 2 → wireType ≠ 5 →
      skipField buffer offset wireType = .error (.unsupportedWireType wireType)) := by
  refine ⟨?_, rfl, ?_, rfl, ?_⟩
  · intro value next h
    simp [skipField, h]
  · intro length next h
    simp [skipField, h]
  · intro wireType h0 h1 h2 h5
    rcases Nat.lt_or_ge wireType 6 with hlt | hge
    · interval_cases wireType <;> simp_all <;> rfl
    · obtain ⟨k, rfl⟩ : ∃ k, wireType = k + 6 := ⟨wireType - 6, by omega⟩
      rfl

/-- Witness for C6 on the concrete buffer `[5, 7]` at offset 0 (the varint at
offset 0 decodes to value 5 consuming one byte). -/
theorem skipField_spec_witness :
    skipField [5, 7] 0 0 = .ok 1 ∧ skipField [5, 7] 0 1 = .ok 8 ∧
      skipField [5, 7] 0 2 = .ok 6 ∧ skipField [5, 7] 0 5 = .ok 4 ∧
      skipField [5, 7] 0 3 = .error (.unsupportedWireType 3) := by
  obtain ⟨h0, h1, h2, h5, hother⟩ := skipField_spec [5, 7] 0
  have hv : readVarint [5, 7] 0 = .ok (5, 1) := rfl
  exact ⟨h0 5 1 hv, h1, by simpa using h2 5 1 hv, h5,
    hother 3 (by omega) (by omega) (by omega) (by omega)⟩

/-! ### Claim C10: the wire parsers make progress and terminate -/

/-- C10 (implicit): the wire parsers terminate on every finite buffer.  The
loop measure arguments are exactly the two progress facts below — a
successful `readVarint` consumes at least one byte and every successful
`skipField` branch strictly advances the offset — and with them each parser
(`parseAppleWLoc`, `parseWifiDevice`, `parseLocation`) is total: on any byte
sequence it either returns normally or fails with one of the two decode
errors.  (The Lean embeddings of the three loops are accepted by the
termination checker with `buffer.length - offset` as measure, using these
same two facts.) -/
theorem parsers_terminate :
    (∀ (buffer : List Nat) (offset value next : Nat),
      readVarint buffer offset = .ok (value, next) → offset < next) ∧
    (∀ (buffer : List Nat) (offset wireType next : Nat),
      skipField buffer offset wireType = .ok next → offset < next) ∧
    (∀ buffer : List Nat,
      (∃ devices, parseAppleWLoc buffer = .ok devices) ∨
        (∃ e, parseAppleWLoc buffer = .error e)) ∧
    (∀ buffer : List Nat,
      (∃ device, parseWifiDevice buffer = .ok device) ∨
        (∃ e, parseWifiDevice buffer = .error e)) ∧
    (∀ buffer : List Nat,
      (∃ loc, parseLocation buffer = .ok loc) ∨
        (∃ e, parseLocation buffer = .error e)) := by
  refine ⟨fun _ _ _ _ h => readVarint_progress h,
    fun _ _ _ _ h => skipField_progress h, ?_, ?_, ?_⟩
  · intro buffer
    cases h : parseAppleWLoc buffer with
    | ok devices => exact .inl ⟨devices, rfl⟩
    | error e => exact .inr ⟨e, rfl⟩
  · intro buffer
    cases h : parseWifiDevice buffer with
    | ok device => exact .inl ⟨device, rfl⟩
    | error e => exact .inr ⟨e, rfl⟩
  · intro buffer
    cases h : parseLocation buffer with
    | ok loc => exact .inl ⟨loc, rfl⟩
    | error e => exact .inr ⟨e, rfl⟩

/-- Witness for C10: concrete progress instances — reading the one-byte varint
`[0]` moves the offset from 0 to 1, and skipping a fixed64 field moves it from
0 to 8. -/
theorem parsers_terminate_witness : (0 : Nat) < 1 ∧ (0 : Nat) < 8 :=
  ⟨parsers_terminate.1 [0] 0 0 1 rfl, parsers_terminate.2.1 [] 0 1 8 rfl⟩

/-! ### Claim C5: upstream response body handling -/

/-- Errors surfaced by the response handling: `AppleServiceError` (carrying
its HTTP-like status code) or a decode error propagated from the parser. -/
inductive WorkerError where
  | appleService (statusCode : Nat) : WorkerError
  | decode (e : DecodeError) : WorkerError
deriving Repr, DecidableEq

/-- Response-body handling of `requestAppleDevices` (source lines 79–85), the
part after the transport delivered a success status: a body of 10 bytes or
fewer throws `AppleServiceError('…unexpected payload.', 502)`; otherwise the
fixed 10-byte prefix is stripped (`body.subarray(10)`) and the remainder goes
to `parseAppleWLoc`.  The HTTP transport itself (lines 63–78) is outside the
modelled core. -/
def handleAppleResponseBody (body : List Nat) : Except WorkerError (List WifiDevice) :=
  if body.length ≤ 10 then
    .error (.appleService 502)
  else
    (parseAppleWLoc (body.drop 10)).mapError .decode

/-- C5: a response body of 10 bytes or shorter fails with the distinguishable
upstream-error condition (`AppleServiceError` with status 502) and no parsing
is attempted; a longer body has exactly its first 10 bytes stripped and the
remainder handed to the wire parser. -/
theorem responseBody_spec (body : List Nat) :
    (body.length ≤ 10 → handleAppleResponseBody body = .error (.appleService 502)) ∧
    (10 < body.length →
      handleAppleResponseBody body =
        (parseAppleWLoc (body.drop 10)).mapError WorkerError.decode) := by
  constructor
  · intro h
    simp [handleAppleResponseBody, h]
  · intro h
    rw [handleAppleResponseBody, if_neg (by omega)]

/-- Witness for C5: a 5-byte body is rejected with status 502; an 11-byte body
is parsed after dropping its 10-byte prefix. -/
theorem responseBody_spec_witness :
    handleAppleResponseBody (List.replicate 5 0) = .error (.appleService 502) ∧
      handleAppleResponseBody (List.replicate 11 0) =
        (parseAppleWLoc ((List.replicate 11 0).drop 10)).mapError WorkerError.decode :=
  ⟨(responseBody_spec (List.replicate 5 0)).1 (by simp),
    (responseBody_spec (List.replicate 11 0)).2 (by simp)⟩

/-! ### Claim C9: BSSID canonicalization -/

/-- The characters kept by `input.replace(/[^a-f0-9]/gi, '')` (source
line 162): ASCII digits and the letters a–f in either case. -/
def isHexChar (c : Char) : Bool :=
  decide ((48 ≤ c.toNat ∧ c.toNat ≤ 57) ∨ (97 ≤ c.toNat ∧ c.toNat ≤ 102) ∨
    (65 ≤ c.toNat ∧ c.toNat ≤ 70))

/-- `input.replace(/[^a-f0-9]/gi, '').toLowerCase()` (source line 162).
After the strip only ASCII hex characters remain, on which JavaScript
`toLowerCase` agrees with `Char.toLower`. -/
def stripToLowerHex (input : String) : List Char :=
  (input.data.filter isHexChar).map Char.toLower

/-- The slicing loop of `normalizeBssid` (source lines 166–169):
`hex.slice(i, i + 2)` for `i = 0, 2, 4, …`. -/
def hexPairs : List Char → List (List Char)
  | a :: b :: rest => [a, b] :: hexPairs rest
  | [a] => [[a]]
  | [] => []

/-- `parts.join(':')` (source line 170). -/
def joinColon : List (List Char) → List Char
  | [] => []
  | [p] => p
  | p :: rest => p ++ ':' :: joinColon rest

/-- `normalizeBssid(input)` (source lines 161–171). -/
def normalizeBssid (input : String) : Except String String :=
  let hex := stripToLowerHex input
  if hex.length ≠ 12 then
    .error "Each BSSID must contain 12 hexadecimal characters."
  else
    .ok (String.mk (joinColon (hexPairs hex)))

/-- Lowercase hex characters: the alphabet of canonicalized BSSIDs. -/
def isLowerHex (c : Char) : Bool :=
  decide ((48 ≤ c.toNat ∧ c.toNat ≤ 57) ∨ (97 ≤ c.toNat ∧ c.toNat ≤ 102))

theorem toNat_ofNat_of_lt {n : Nat} (h : n < 55296) : (Char.ofNat n).toNat = n := by
  rw [Char.ofNat, dif_pos (Or.inl h : n.isValidChar)]
  rfl

theorem toLower_isLowerHex {c : Char} (h : isHexChar c = true) :
    isLowerHex (Char.toLower c) = true := by
  simp only [isHexChar, decide_eq_true_eq] at h
  simp only [Char.toLower, isLowerHex, decide_eq_true_eq]
  split
  · next hcond =>
    rw [toNat_ofNat_of_lt (by omega)]
    omega
  · next hcond => omega

theorem isLowerHex_fixed {c : Char} (h : isLowerHex c = true) :
    isHexChar c = true ∧ Char.toLower c = c := by
  simp only [isLowerHex, decide_eq_true_eq] at h
  refine ⟨by simp only [isHexChar, decide_eq_true_eq]; omega, ?_⟩
  simp only [Char.toLower]
  rw [if_neg (by omega)]

theorem stripToLowerHex_mem {s : String} {c : Char} (h : c ∈ stripToLowerHex s) :
    isLowerHex c = true := by
  simp only [stripToLowerHex, List.mem_map, List.mem_filter] at h
  obtain ⟨d, ⟨_, hd⟩, rfl⟩ := h
  exact toLower_isLowerHex hd

theorem flatten_hexPairs (l : List Char) : (hexPairs l).flatten = l := by
  induction l using hexPairs.induct with
  | case1 a b rest ih => simp [hexPairs, ih]
  | case2 a => simp [hexPairs]
  | case3 => simp [hexPairs]

theorem hexPairs_mem {l : List Char} {p : List Char} (hp : p ∈ hexPairs l) :
    ∀ c ∈ p, c ∈ l := by
  induction l using hexPairs.induct with
  | case1 a b rest ih =>
    intro c hc
    simp only [hexPairs, List.mem_cons] at hp
    rcases hp with rfl | hp
    · simp only [List.mem_cons, List.not_mem_nil, or_false] at hc
      rcases hc with rfl | rfl
      · exact List.mem_cons_self _ _
      · exact List.mem_cons_of_mem _ (List.mem_cons_self _ _)
    · exact List.mem_cons_of_mem _ (List.mem_cons_of_mem _ (ih hp c hc))
  | case2 a =>
    intro c hc
    simp only [hexPairs, List.mem_singleton] at hp
    subst hp
    simpa using hc
  | case3 => simp [hexPairs] at hp

theorem filter_joinColon (L : List (List Char))
    (hL : ∀ p ∈ L, ∀ c ∈ p, isHexChar c = true) :
    (joinColon L).filter isHexChar = L.flatten := by
  induction L with
  | nil => rfl
  | cons p RS ih =>
    cases RS with
    | nil =>
      simp only [joinColon, List.flatten]
      rw [List.filter_eq_self.mpr (fun c hc => hL p (by simp) c hc)]
      simp
    | cons q RS2 =>
      have hcolon : isHexChar ':' = false := by decide
      simp only [joinColon, List.flatten_cons]
      rw [List.filter_append, List.filter_cons_of_neg (by simp [hcolon]),
        List.filter_eq_self.mpr (fun c hc => hL p (by simp) c hc),
        ih (fun r hr c hc => hL r (by simp [hr]) c hc)]
      simp

/-- C9: BSSID canonicalization is idempotent — whenever `normalizeBssid`
succeeds, running it again on its own output returns the same string — and
the three spec examples all canonicalize to `"34:db:fd:43:e3:a1"`. -/
theorem normalizeBssid_idempotent :
    (∀ s r, normalizeBssid s = .ok r → normalizeBssid r = .ok r) ∧
    normalizeBssid "34DBFD43E3A1" = .ok "34:db:fd:43:e3:a1" ∧
    normalizeBssid "34-db-fd-43-e3-a1" = .ok "34:db:fd:43:e3:a1" ∧
    normalizeBssid "34:DB:FD:43:E3:A1" = .ok "34:db:fd:43:e3:a1" := by
  refine ⟨?_, by rfl, by rfl, by rfl⟩
  intro s r h
  simp only [normalizeBssid] at h
  split at h
  · exact absurd h (by simp)
  · next hlen =>
    simp only [Except.ok.injEq] at h
    have hlow : ∀ c ∈ stripToLowerHex s, isLowerHex c = true :=
      fun c hc => stripToLowerHex_mem hc
    have hhex : ∀ c ∈ stripToLowerHex s, isHexChar c = true :=
      fun c hc => (isLowerHex_fixed (hlow c hc)).1
    have hdata : r.data = joinColon (hexPairs (stripToLowerHex s)) := by
      rw [← h]
    have hstrip : stripToLowerHex r = stripToLowerHex s := by
      unfold stripToLowerHex
      rw [hdata, filter_joinColon _
        (fun p hp c hc => hhex c (hexPairs_mem hp c hc)), flatten_hexPairs]
      exact List.map_congr_left (fun c hc => (isLowerHex_fixed (hlow c hc)).2) |>.trans
        (List.map_id _)
    simp only [normalizeBssid, hstrip]
    rw [if_neg (by simpa using hlen)]
    rw [← h]

/-- Witness for C9: applying the idempotence part of the theorem to the
concrete canonicalization of `"34DBFD43E3A1"`. -/
theorem normalizeBssid_idempotent_witness :
    normalizeBssid "34:db:fd:43:e3:a1" = .ok "34:db:fd:43:e3:a1" :=
  normalizeBssid_idempotent.1 "34DBFD43E3A1" "34:db:fd:43:e3:a1" (by rfl)

/-! ### Claim C4: the outbound request trailer -/

/-- A JavaScript number as seen by `Number.isFinite`: either a finite value
(kept exact as `ℚ`) or one of the non-finite values `NaN`, `+∞`, `-∞`. -/
inductive JSNumber where
  | fin (q : ℚ) : JSNumber
  | nan : JSNumber
  | posInf : JSNumber
  | negInf : JSNumber
deriving Repr, DecidableEq

/-- `Number.isFinite`. -/
def JSNumber.isFinite : JSNumber → Bool
  | .fin _ => true
  | _ => false

/-- An access-point query after input normalization
(`{ bssid, signal }`, source lines 19–22). -/
structure AccessPoint where
  bssid : String
  signal : Option JSNumber
deriving Repr, DecidableEq

/-- UTF-8 encoding of one code point (models `TextEncoder.encode`
byte-for-byte; `Char` excludes surrogates just as JS strings fed through
`TextEncoder` never produce lone surrogate encodings). -/
def utf8Bytes (c : Char) : List Nat :=
  let n := c.toNat
  if n < 0x80 then
    [n]
  else if n < 0x800 then
    [0xc0 ||| (n >>> 6), 0x80 ||| (n &&& 0x3f)]
  else if n < 0x10000 then
    [0xe0 ||| (n >>> 12), 0x80 ||| ((n >>> 6) &&& 0x3f), 0x80 ||| (n &&& 0x3f)]
  else
    [0xf0 ||| (n >>> 18), 0x80 ||| ((n >>> 12) &&& 0x3f), 0x80 ||| ((n >>> 6) &&& 0x3f),
      0x80 ||| (n &&& 0x3f)]

/-- `TEXT_ENCODER.encode(s)`: the UTF-8 bytes of a string. -/
def textEncode (s : String) : List Nat :=
  (s.data.map utf8Bytes).flatten

/-- `encodeAppleWLocRequest(accessPoints, includeAll)` (source lines
181–206): per access point a field-2 wrapper (`0x12`) around a field-1
(`0x0a`) length-delimited BSSID text, then field 3 (`0x18`) with value 0 and
field 4 (`0x20`) with the `returnSingle` flag
(`!includeAll && accessPoints.length === 1 ? 1 : 0`). -/
def encodeAppleWLocRequest (accessPoints : List AccessPoint) (includeAll : Bool) :
    Except String (List Nat) :=
  if accessPoints.length = 0 then
    .error "At least one access point is required."
  else
    let message := accessPoints.foldl (fun msg point =>
      let bssidBytes := textEncode point.bssid
      let wifiDevice := 0x0a :: (encodeVarint bssidBytes.length ++ bssidBytes)
      msg ++ 0x12 :: (encodeVarint wifiDevice.length ++ wifiDevice)) []
    let message2 := message ++ 0x18 :: encodeVarint 0
    let returnSingle : Nat := if ¬includeAll ∧ accessPoints.length = 1 then 1 else 0
    .ok (message2 ++ 0x20 :: encodeVarint returnSingle)

theorem encodeVarint_zero : encodeVarint 0 = [0] := by
  rw [encodeVarint]
  norm_num

theorem encodeVarint_one : encodeVarint 1 = [1] := by
  rw [encodeVarint]
  norm_num

/-- C4: for every non-empty access-point list the encoded request ends with
field 3 (tag byte `0x18`) carrying value 0 followed by field 4 (tag byte
`0x20`) whose value is 1 exactly when one access point was supplied and the
include-all flag is false, and 0 otherwise. -/
theorem encodeAppleWLocRequest_tail (accessPoints : List AccessPoint)
    (includeAll : Bool) (hne : accessPoints ≠ []) :
    (encodeAppleWLocRequest accessPoints includeAll).map
        (fun msg => msg.drop (msg.length - 4)) =
      .ok [0x18, 0, 0x20,
        if ¬includeAll ∧ accessPoints.length = 1 then 1 else 0] := by
  unfold encodeAppleWLocRequest
  rw [if_neg (by simpa using hne)]
  simp only [Except.map]
  set base := accessPoints.foldl (fun msg point =>
    let bssidBytes := textEncode point.bssid
    let wifiDevice := 0x0a :: (encodeVarint bssidBytes.length ++ bssidBytes)
    msg ++ 0x12 :: (encodeVarint wifiDevice.length ++ wifiDevice)) [] with hbase
  have hsingle : encodeVarint (if ¬includeAll ∧ accessPoints.length = 1 then 1 else 0) =
      [if ¬includeAll ∧ accessPoints.length = 1 then 1 else 0] := by
    split
    · exact encodeVarint_one
    · exact encodeVarint_zero
  rw [encodeVarint_zero, hsingle]
  have hshape : base ++ 0x18 :: [0] ++ 0x20 ::
      [if ¬includeAll ∧ accessPoints.length = 1 then 1 else 0] =
      base ++ [0x18, 0, 0x20, if ¬includeAll ∧ accessPoints.length = 1 then 1 else 0] := by
    simp
  rw [hshape, List.length_append]
  simp only [List.length_cons, List.length_nil]
  rw [show base.length + 4 - 4 = base.length from by omega]
  rw [List.drop_left]

/-- Witness for C4: one access point and `includeAll = false` yields trailer
value 1. -/
theorem encodeAppleWLocRequest_tail_witness :
    (encodeAppleWLocRequest [⟨"aa", none⟩] false).map
        (fun msg => msg.drop (msg.length - 4)) = .ok [0x18, 0, 0x20, 1] := by
  have h := encodeAppleWLocRequest_tail [⟨"aa", none⟩] false (by simp)
  simpa using h

/-! ### Claim C8: the signal-weight model -/

/-- `weightFromSignal(signal)` (source lines 462–468): non-finite inputs give
weight 0; a finite signal is clamped by `Math.max(Math.min(signal, -5), -120)`
and mapped through `Math.pow(10, clamped / 10)` (real exponentiation). -/
noncomputable def weightFromSignal (signal : JSNumber) : ℝ :=
  match signal with
  | .fin q => (10 : ℝ) ^ (max (min (q : ℝ) (-5)) (-120) / 10)
  | _ => 0

/-- C8: `weightFromSignal` clamps its argument into `[-120, -5]` before
applying `10 ^ (x/10)`; it is larger at −52 than at −90; it takes the same
value at −3 as at −5 (clamping); and every non-finite input (NaN, ±∞) gives
weight 0. -/
theorem weightFromSignal_spec :
    (∀ q : ℚ, weightFromSignal (.fin q) =
      (10 : ℝ) ^ (max (min (q : ℝ) (-5)) (-120) / 10)) ∧
    weightFromSignal (.fin (-52)) > weightFromSignal (.fin (-90)) ∧
    weightFromSignal (.fin (-3)) = weightFromSignal (.fin (-5)) ∧
    (∀ s : JSNumber, s.isFinite = false → weightFromSignal s = 0) := by
  refine ⟨fun q => rfl, ?_, ?_, ?_⟩
  · show weightFromSignal (.fin (-90)) < weightFromSignal (.fin (-52))
    simp only [weightFromSignal]
    rw [Real.rpow_lt_rpow_left_iff (by norm_num : (1 : ℝ) < 10)]
    rw [show (((-90 : ℚ) : ℝ)) = -90 by push_cast; ring,
      show (((-52 : ℚ) : ℝ)) = -52 by push_cast; ring]
    rw [min_eq_left (by norm_num), min_eq_left (by norm_num),
      max_eq_left (by norm_num), max_eq_left (by norm_num)]
    norm_num
  · simp only [weightFromSignal]
    congr 1
    rw [show (((-3 : ℚ) : ℝ)) = -3 by push_cast; ring,
      show (((-5 : ℚ) : ℝ)) = -5 by push_cast; ring]
    rw [min_eq_right (by norm_num), min_eq_left (by norm_num)]
  · intro s hs
    cases s with
    | fin q => simp [JSNumber.isFinite] at hs
    | nan => rfl
    | posInf => rfl
    | negInf => rfl

/-- Witness for C8: the non-finite clause applied at `NaN`. -/
theorem weightFromSignal_spec_witness :
    JSNumber.isFinite .nan = false ∧ weightFromSignal .nan = 0 :=
  ⟨rfl, weightFromSignal_spec.2.2.2 .nan rfl⟩

/-! ### Claim C7: the weighted spherical centroid -/

/-- A triangulation candidate (`{ latitude, longitude, weight }`,
source line 409). -/
structure TrianPoint where
  latitude : ℝ
  longitude : ℝ
  weight : ℝ

/-- The estimate returned by `computeTriangulatedLocation`
(source lines 507–512). -/
structure TriangulatedEstimate where
  latitude : ℝ
  longitude : ℝ
  pointsUsed : Nat
  weightSum : ℝ

/-- `toRadians(degrees)` (source lines 515–517). -/
noncomputable def toRadians (degrees : ℝ) : ℝ :=
  degrees * Real.pi / 180

/-- `toDegrees(radians)` (source lines 519–521). -/
noncomputable def toDegrees (radians : ℝ) : ℝ :=
  radians * 180 / Real.pi

/-- `Math.atan2(y, x)` (signed zeros aside: `atan2 0 0 = 0`). -/
noncomputable def atan2 (y x : ℝ) : ℝ :=
  if 0 < x then Real.arctan (y / x)
  else if x < 0 then
    (if 0 ≤ y then Real.arctan (y / x) + Real.pi else Real.arctan (y / x) - Real.pi)
  else
    (if 0 < y then Real.pi / 2 else if y < 0 then -(Real.pi / 2) else 0)

/-- `Number(v.toFixed(7))`: rounding to 7 decimal places; `toFixed` picks the
larger candidate on ties, which is Mathlib's `round`. -/
noncomputable def roundTo7 (v : ℝ) : ℝ :=
  (round (v * 10 ^ 7) : ℤ) / 10 ^ 7

open scoped Classical in
/-- `computeTriangulatedLocation(points)` (source lines 470–513): `null` for
fewer than two candidate points; otherwise points with positive weight are
accumulated on the unit sphere, a non-positive weight sum yields `null`, and
otherwise the renormalized centroid is returned with
`pointsUsed: points.length`. -/
noncomputable def computeTriangulatedLocation (points : List TrianPoint) :
    Option TriangulatedEstimate :=
  if points.length < 2 then
    none
  else
    let acc := points.foldl (fun (acc : ℝ × ℝ × ℝ × ℝ) point =>
      if 0 < point.weight then
        let latRad := toRadians point.latitude
        let lonRad := toRadians point.longitude
        let cosLat := Real.cos latRad
        (acc.1 + point.weight,
          acc.2.1 + cosLat * Real.cos lonRad * point.weight,
          acc.2.2.1 + cosLat * Real.sin lonRad * point.weight,
          acc.2.2.2 + Real.sin latRad * point.weight)
      else acc) (0, 0, 0, 0)
    if acc.1 ≤ 0 then
      none
    else
      let x := acc.2.1 / acc.1
      let y := acc.2.2.1 / acc.1
      let z := acc.2.2.2 / acc.1
      let hyp := Real.sqrt (x * x + y * y)
      let latitude := atan2 z hyp
      let longitude := atan2 y x
      some ⟨roundTo7 (toDegrees latitude), roundTo7 (toDegrees longitude),
        points.length, acc.1⟩

/-- C7: `computeTriangulatedLocation` returns no estimate whenever it is
given fewer than 2 candidate points, and whenever it does return an estimate
its `pointsUsed` field is the total number of candidate points supplied (not
only the positive-weight ones). -/
theorem computeTriangulatedLocation_spec (points : List TrianPoint) :
    (points.length < 2 → computeTriangulatedLocation points = none) ∧
    (∀ est, computeTriangulatedLocation points = some est →
      est.pointsUsed = points.length) := by
  constructor
  · intro h
    rw [computeTriangulatedLocation, if_pos h]
  · intro est h
    simp only [computeTriangulatedLocation] at h
    split at h
    · exact absurd h (by simp)
    · split at h
      · exact absurd h (by simp)
      · simp only [Option.some.injEq] at h
        rw [← h]

/-- Evaluation of the centroid at two unit-weight points on the equator at
longitude 0: total weight 2, centroid (0, 0). -/
theorem computeTriangulated_concrete :
    computeTriangulatedLocation [⟨0, 0, 1⟩, ⟨0, 0, 1⟩] = some ⟨0, 0, 2, 2⟩ := by
  rw [computeTriangulatedLocation]
  rw [if_neg (by norm_num)]
  simp only [List.foldl_cons, List.foldl_nil]
  rw [if_pos (show (0 : ℝ) < 1 by norm_num), if_pos (show (0 : ℝ) < 1 by norm_num)]
  simp only [toRadians, zero_mul, zero_div, Real.cos_zero, Real.sin_zero]
  norm_num [atan2, toDegrees, roundTo7]

/-- Witness for C7: the empty candidate list yields no estimate, and the
two-point example above reports `pointsUsed = 2`, the full candidate count. -/
theorem computeTriangulatedLocation_spec_witness :
    computeTriangulatedLocation ([] : List TrianPoint) = none ∧
      (⟨0, 0, 2, 2⟩ : TriangulatedEstimate).pointsUsed =
        [(⟨0, 0, 1⟩ : TrianPoint), ⟨0, 0, 1⟩].length :=
  ⟨(computeTriangulatedLocation_spec []).1 (by simp),
    (computeTriangulatedLocation_spec [⟨0, 0, 1⟩, ⟨0, 0, 1⟩]).2 ⟨0, 0, 2, 2⟩
      computeTriangulated_concrete⟩

/-! ### Claim C3: the (−180, −180) sentinel never reaches the results -/

/-- `tryNormalizeBssid(input)` (source lines 173–179): best-effort variant
that swallows the validation error. -/
def tryNormalizeBssid (input : String) : Option String :=
  match normalizeBssid input with
  | .ok r => some r
  | .error _ => none

/-- The signals recorded for one requested BSSID (source lines 367–374): the
`requestedMap` entry for a key collects, in request order, the signals of all
requested points with that BSSID that are non-null and finite. -/
def signalsFor (requestedAccessPoints : List AccessPoint) (bssid : String) : List ℚ :=
  requestedAccessPoints.filterMap (fun point =>
    if point.bssid = bssid then
      match point.signal with
      | some (.fin q) => some q
      | _ => none
    else none)

/-- The per-BSSID signal summary (source lines 454–459). -/
structure SignalSummary where
  signal : ℚ
  signalCount : Nat
  signalMin : ℚ
  signalMax : ℚ
deriving Repr, DecidableEq

/-- `summarizeSignals(signals)` (source lines 441–460): `null` for an empty
list, otherwise min/max/count and the average rounded to 2 decimal places
(`Number(average.toFixed(2))`; `toFixed` resolves ties upward, matching
`round`). -/
def summarizeSignals (signals : List ℚ) : Option SignalSummary :=
  match signals with
  | [] => none
  | s0 :: _ =>
    let stats := signals.foldl (fun (acc : ℚ × ℚ × ℚ) value =>
      (min acc.1 value, max acc.2.1 value, acc.2.2 + value)) (s0, s0, 0)
    some ⟨(round (stats.2.2 / signals.length * 100) : ℤ) / 100,
      signals.length, stats.1, stats.2.1⟩

/-- One entry of `results` (source lines 399–405).  The `mapUrl` string — a
pure textual rendering of the same latitude/longitude — is not modelled. -/
structure ResultEntry where
  bssid : String
  latitude : ℚ
  longitude : ℚ
  summary : Option SignalSummary

open scoped Classical in
/-- The body of the device loop of `formatResults` (source lines 380–411),
acting on the accumulated `(aggregatedResults, triangulationCandidates)`
pair: devices without BSSID text (null or empty — both falsy) or without a
location are skipped, the BSSID is best-effort canonicalized, the scaled
coordinates are checked against the (−180, −180) sentinel, and the surviving
device contributes a result entry and — when its summed signal weight is
positive — a triangulation candidate. -/
noncomputable def buildStep (requestedAccessPoints : List AccessPoint)
    (acc : List ResultEntry × List TrianPoint) (device : WifiDevice) :
    List ResultEntry × List TrianPoint :=
  match device.bssid, device.location with
  | some b, some loc =>
    if b = "" then acc
    else
      match tryNormalizeBssid b with
      | none => acc
      | some normalized =>
        let latitude := (loc.latitudeE8 : ℚ) / 100000000
        let longitude := (loc.longitudeE8 : ℚ) / 100000000
        if latitude = -180 ∧ longitude = -180 then acc
        else
          let signals := signalsFor requestedAccessPoints normalized
          let entry : ResultEntry := ⟨normalized, latitude, longitude,
            summarizeSignals signals⟩
          let weight := signals.foldl (fun total signal =>
            total + weightFromSignal (.fin signal)) (0 : ℝ)
          if 0 < weight then
            (acc.1 ++ [entry], acc.2 ++ [⟨(latitude : ℝ), (longitude : ℝ), weight⟩])
          else
            (acc.1 ++ [entry], acc.2)
  | _, _ => acc

/-- The device loop of `formatResults` (source lines 377–411). -/
noncomputable def buildAggregates (devices : List WifiDevice)
    (requestedAccessPoints : List AccessPoint) :
    List ResultEntry × List TrianPoint :=
  devices.foldl (buildStep requestedAccessPoints) ([], [])

/-- The response structure assembled by `formatResults` (source lines
418–436).  The `query` echo of the request and the constant `method` /
`signalWeightModel` strings are not modelled. -/
structure FormattedResponse where
  found : Bool
  results : List ResultEntry
  triangulated : Option TriangulatedEstimate

/-- `formatResults(devices, requestedAccessPoints, includeAll)` (source lines
366–439): aggregates the decoded devices, restricts to the requested BSSIDs
unless `includeAll`, sets `found` iff any result remains, and attaches the
triangulated estimate when one exists. -/
noncomputable def formatResults (devices : List WifiDevice)
    (requestedAccessPoints : List AccessPoint) (includeAll : Bool) :
    FormattedResponse :=
  let agg := buildAggregates devices requestedAccessPoints
  let results := if includeAll then agg.1
    else agg.1.filter (fun entry =>
      requestedAccessPoints.any (fun point => point.bssid = entry.bssid))
  ⟨decide (0 < results.length), results, computeTriangulatedLocation agg.2⟩

theorem buildStep_preserves (requestedAccessPoints : List AccessPoint)
    (acc : List ResultEntry × List TrianPoint) (device : WifiDevice)
    (h1 : ∀ e ∈ acc.1, ¬(e.latitude = -180 ∧ e.longitude = -180))
    (h2 : ∀ p ∈ acc.2, ¬(p.latitude = -180 ∧ p.longitude = -180)) :
    (∀ e ∈ (buildStep requestedAccessPoints acc device).1,
      ¬(e.latitude = -180 ∧ e.longitude = -180)) ∧
    (∀ p ∈ (buildStep requestedAccessPoints acc device).2,
      ¬(p.latitude = -180 ∧ p.longitude = -180)) := by
  rcases hb : device.bssid with _ | b <;> rcases hl : device.location with _ | loc <;>
    simp only [buildStep, hb, hl]
  · exact ⟨h1, h2⟩
  · exact ⟨h1, h2⟩
  · exact ⟨h1, h2⟩
  · by_cases hbe : b = ""
    · rw [if_pos hbe]; exact ⟨h1, h2⟩
    · rw [if_neg hbe]
      rcases htn : tryNormalizeBssid b with _ | normalized
      · exact ⟨h1, h2⟩
      · simp only []
        by_cases hsent : (loc.latitudeE8 : ℚ) / 100000000 = -180 ∧
          (loc.longitudeE8 : ℚ) / 100000000 = -180
        · rw [if_pos hsent]; exact ⟨h1, h2⟩
        · rw [if_neg hsent]
          have hcast : ¬(((loc.latitudeE8 : ℚ) / 100000000 : ℚ) : ℝ) = -180 ∨
              ¬(((loc.longitudeE8 : ℚ) / 100000000 : ℚ) : ℝ) = -180 := by
            rcases not_and_or.mp hsent with hla | hlo
            · left
              intro hc
              apply hla
              have : (((loc.latitudeE8 : ℚ) / 100000000 : ℚ) : ℝ) = ((-180 : ℚ) : ℝ) := by
                rw [hc]; norm_num
              exact_mod_cast this
            · right
              intro hc
              apply hlo
              have : (((loc.longitudeE8 : ℚ) / 100000000 : ℚ) : ℝ) = ((-180 : ℚ) : ℝ) := by
                rw [hc]; norm_num
              exact_mod_cast this
          split
          · constructor
            · intro e he
              rcases List.mem_append.mp he with he | he
              · exact h1 e he
              · simp only [List.mem_singleton] at he
                subst he
                simpa using hsent
            · intro p hp
              rcases List.mem_append.mp hp with hp | hp
              · exact h2 p hp
              · simp only [List.mem_singleton] at hp
                subst hp
                exact not_and_or.mpr hcast
          · constructor
            · intro e he
              rcases List.mem_append.mp he with he | he
              · exact h1 e he
              · simp only [List.mem_singleton] at he
                subst he
                simpa using hsent
            · exact h2

theorem buildAggregates_no_sentinel (devices : List WifiDevice)
    (requestedAccessPoints : List AccessPoint) :
    (∀ e ∈ (buildAggregates devices requestedAccessPoints).1,
      ¬(e.latitude = -180 ∧ e.longitude = -180)) ∧
    (∀ p ∈ (buildAggregates devices requestedAccessPoints).2,
      ¬(p.latitude = -180 ∧ p.longitude = -180)) := by
  unfold buildAggregates
  suffices h : ∀ acc : List ResultEntry × List TrianPoint,
      (∀ e ∈ acc.1, ¬(e.latitude = -180 ∧ e.longitude = -180)) →
      (∀ p ∈ acc.2, ¬(p.latitude = -180 ∧ p.longitude = -180)) →
      (∀ e ∈ (devices.foldl (buildStep requestedAccessPoints) acc).1,
        ¬(e.latitude = -180 ∧ e.longitude = -180)) ∧
      (∀ p ∈ (devices.foldl (buildStep requestedAccessPoints) acc).2,
        ¬(p.latitude = -180 ∧ p.longitude = -180)) by
    exact h ([], []) (by simp) (by simp)
  induction devices with
  | nil => intro acc h1 h2; exact ⟨h1, h2⟩
  | cons device rest ih =>
    intro acc h1 h2
    rw [List.foldl_cons]
    obtain ⟨h1s, h2s⟩ := buildStep_preserves requestedAccessPoints acc device h1 h2
    exact ih _ h1s h2s

/-- C3: no entry of the `results` sequence returned by `formatResults` has
latitude −180 together with longitude −180, and no triangulation candidate
carries that sentinel coordinate either: a device decoding to the
(−180, −180) sentinel is discarded before aggregation. -/
theorem formatResults_no_sentinel (devices : List WifiDevice)
    (requestedAccessPoints : List AccessPoint) (includeAll : Bool) :
    (∀ entry ∈ (formatResults devices requestedAccessPoints includeAll).results,
      ¬(entry.latitude = -180 ∧ entry.longitude = -180)) ∧
    (∀ point ∈ (buildAggregates devices requestedAccessPoints).2,
      ¬(point.latitude = -180 ∧ point.longitude = -180)) := by
  obtain ⟨h1, h2⟩ := buildAggregates_no_sentinel devices requestedAccessPoints
  refine ⟨?_, h2⟩
  intro entry hmem
  apply h1
  simp only [formatResults] at hmem
  split at hmem
  · exact hmem
  · exact List.mem_of_mem_filter hmem

theorem weightFromSignal_neg52_pos : (0 : ℝ) < weightFromSignal (.fin (-52)) := by
  simp only [weightFromSignal]
  positivity

theorem summarizeSignals_neg52 : summarizeSignals [(-52 : ℚ)] = some ⟨-52, 1, -52, -52⟩ := by
  simp only [summarizeSignals, List.foldl_cons, List.foldl_nil, List.length_cons,
    List.length_nil, min_self, max_self, Option.some.injEq]
  have h : ((0 : ℚ) + -52) / ((0 : ℕ) + 1 : ℕ) * 100 = ((-5200 : ℤ) : ℚ) := by
    norm_num
  rw [h, round_intCast]
  simp only [SignalSummary.mk.injEq]
  norm_num

theorem buildAggregates_concrete :
    buildAggregates
        [⟨some "34:db:fd:43:e3:a1", some ⟨4885661300, 235222200⟩⟩]
        [⟨"34:db:fd:43:e3:a1", some (.fin (-52))⟩] =
      ([⟨"34:db:fd:43:e3:a1", (4885661300 : ℚ) / 100000000,
          (235222200 : ℚ) / 100000000, some ⟨-52, 1, -52, -52⟩⟩],
        [⟨(((4885661300 : ℚ) / 100000000 : ℚ) : ℝ), (((235222200 : ℚ) / 100000000 : ℚ) : ℝ),
          (0 : ℝ) + weightFromSignal (.fin (-52))⟩]) := by
  unfold buildAggregates
  rw [List.foldl_cons, List.foldl_nil]
  simp only [buildStep]
  rw [if_neg (by decide : ¬("34:db:fd:43:e3:a1" : String) = "")]
  rw [show tryNormalizeBssid "34:db:fd:43:e3:a1" = some "34:db:fd:43:e3:a1" from rfl]
  simp only []
  rw [if_neg (by norm_num :
    ¬(((4885661300 : Int) : ℚ) / 100000000 = -180 ∧
      ((235222200 : Int) : ℚ) / 100000000 = -180))]
  rw [show signalsFor [⟨"34:db:fd:43:e3:a1", some (.fin (-52))⟩] "34:db:fd:43:e3:a1" =
    [(-52 : ℚ)] from rfl]
  simp only [List.foldl_cons, List.foldl_nil]
  rw [if_pos (by have := weightFromSignal_neg52_pos; linarith :
    (0 : ℝ) < 0 + weightFromSignal (.fin (-52)))]
  rw [summarizeSignals_neg52]
  norm_num

/-- Witness for C3: a device at (48.856613, 2.352222) with one −52 dBm signal
produces exactly one result entry and one triangulation candidate, and the
theorem applies to both, neither being the (−180, −180) sentinel. -/
theorem formatResults_no_sentinel_witness :
    (⟨"34:db:fd:43:e3:a1", (4885661300 : ℚ) / 100000000,
        (235222200 : ℚ) / 100000000, some ⟨-52, 1, -52, -52⟩⟩ : ResultEntry) ∈
      (formatResults [⟨some "34:db:fd:43:e3:a1", some ⟨4885661300, 235222200⟩⟩]
        [⟨"34:db:fd:43:e3:a1", some (.fin (-52))⟩] true).results ∧
    ¬((4885661300 : ℚ) / 100000000 = -180 ∧ (235222200 : ℚ) / 100000000 = -180) ∧
    ¬((((4885661300 : ℚ) / 100000000 : ℚ) : ℝ) = -180 ∧
      (((235222200 : ℚ) / 100000000 : ℚ) : ℝ) = -180) := by
  have hmem1 : (⟨"34:db:fd:43:e3:a1", (4885661300 : ℚ) / 100000000,
      (235222200 : ℚ) / 100000000, some ⟨-52, 1, -52, -52⟩⟩ : ResultEntry) ∈
      (formatResults [⟨some "34:db:fd:43:e3:a1", some ⟨4885661300, 235222200⟩⟩]
        [⟨"34:db:fd:43:e3:a1", some (.fin (-52))⟩] true).results := by
    simp only [formatResults, buildAggregates_concrete, if_pos]
    exact List.mem_singleton.mpr rfl
  have hmem2 : (⟨(((4885661300 : ℚ) / 100000000 : ℚ) : ℝ),
      (((235222200 : ℚ) / 100000000 : ℚ) : ℝ),
      (0 : ℝ) + weightFromSignal (.fin (-52))⟩ : TrianPoint) ∈
      (buildAggregates [⟨some "34:db:fd:43:e3:a1", some ⟨4885661300, 235222200⟩⟩]
        [⟨"34:db:fd:43:e3:a1", some (.fin (-52))⟩]).2 := by
    rw [buildAggregates_concrete]
    exact List.mem_singleton.mpr rfl
  refine ⟨hmem1, ?_, ?_⟩
  · simpa using (formatResults_no_sentinel
      [⟨some "34:db:fd:43:e3:a1", some ⟨4885661300, 235222200⟩⟩]
      [⟨"34:db:fd:43:e3:a1", some (.fin (-52))⟩] true).1 _ hmem1
  · simpa using (formatResults_no_sentinel
      [⟨some "34:db:fd:43:e3:a1", some ⟨4885661300, 235222200⟩⟩]
      [⟨"34:db:fd:43:e3:a1", some (.fin (-52))⟩] true).2 _ hmem2

end WifiGeo
